import Mathlib

/-!
Verification of the fusion360scripts wing-structure generator.

The geometric core of the repository (src/scripts/f360lib/utils.py,
src/scripts/f360lib/wing.py, src/WingRibs.py, src/scripts/CreateSpars/CreateSpars.py,
src/scripts/CreateWingRibs/CreateWingRibs.py) is shallowly embedded below.
Points and vectors are modelled over the real numbers; Python floats are
modelled as exact scalars.  Python `assert`/`raise` failure is modelled with
`Except String`.  The Fusion 360 kernel calls (boundary fill, sketching,
extrusion) are modelled by an explicit environment recording what the kernel
would report, and by an event trace for the transaction protocol.
-/

/-- A 3-component point or vector (`adsk.core.Point3D` / `Vector3D`,
or the 3-element array produced by `asArray()`). -/
structure Vec3 where
  x : ℝ
  y : ℝ
  z : ℝ

namespace Vec3

theorem ext_iff3 {a b : Vec3} : a = b ↔ a.x = b.x ∧ a.y = b.y ∧ a.z = b.z := by
  constructor
  · intro h; subst h; exact ⟨rfl, rfl, rfl⟩
  · rintro ⟨hx, hy, hz⟩; cases a; cases b; simp_all

instance : Add Vec3 := ⟨fun a b => ⟨a.x + b.x, a.y + b.y, a.z + b.z⟩⟩

instance : Sub Vec3 := ⟨fun a b => ⟨a.x - b.x, a.y - b.y, a.z - b.z⟩⟩

instance : SMul ℝ Vec3 := ⟨fun r a => ⟨r * a.x, r * a.y, r * a.z⟩⟩

instance : Zero Vec3 := ⟨⟨0, 0, 0⟩⟩

@[simp] theorem add_x (a b : Vec3) : (a + b).x = a.x + b.x := rfl

@[simp] theorem add_y (a b : Vec3) : (a + b).y = a.y + b.y := rfl

@[simp] theorem add_z (a b : Vec3) : (a + b).z = a.z + b.z := rfl

@[simp] theorem sub_x (a b : Vec3) : (a - b).x = a.x - b.x := rfl

@[simp] theorem sub_y (a b : Vec3) : (a - b).y = a.y - b.y := rfl

@[simp] theorem sub_z (a b : Vec3) : (a - b).z = a.z - b.z := rfl

@[simp] theorem smul_x (r : ℝ) (a : Vec3) : (r • a).x = r * a.x := rfl

@[simp] theorem smul_y (r : ℝ) (a : Vec3) : (r • a).y = r * a.y := rfl

@[simp] theorem smul_z (r : ℝ) (a : Vec3) : (r • a).z = r * a.z := rfl

@[simp] theorem zero_x : (0 : Vec3).x = 0 := rfl

@[simp] theorem zero_y : (0 : Vec3).y = 0 := rfl

@[simp] theorem zero_z : (0 : Vec3).z = 0 := rfl

noncomputable instance : DecidableEq Vec3 := Classical.decEq Vec3

/-- `Vector3D.dotProduct`. -/
def dot (a b : Vec3) : ℝ := a.x * b.x + a.y * b.y + a.z * b.z

/-- Euclidean length of a vector. -/
noncomputable def norm (a : Vec3) : ℝ := Real.sqrt (dot a a)

/-- `Vector3D.normalize` (scales a vector to unit length; the zero vector is
left unchanged, matching the kernel's refusal to normalize it — `1 / 0 = 0`
makes the formula below yield the zero vector again). -/
noncomputable def normalize (a : Vec3) : Vec3 := (1 / norm a) • a

end Vec3

/-- `project_coord(point, direction)` from `src/scripts/f360lib/utils.py`
(the identical function also appears in `src/util/utils.py`): after unpacking
`a, b, c = point` and `x, y, z = direction` the source returns
`a * x + b * y + c * z / math.sqrt(x * x + y * y + z * z)` — by Python
operator precedence only the third product is divided by the norm. -/
noncomputable def project_coord (point direction : Vec3) : ℝ :=
  point.x * direction.x + point.y * direction.y +
    point.z * direction.z /
      Real.sqrt (direction.x * direction.x + direction.y * direction.y +
        direction.z * direction.z)

/-- The projection the specification's contract describes (the full dot
product divided by the Euclidean norm of the direction).  This definition
follows the spec's words, for comparison with `project_coord` above. -/
noncomputable def project_coord_contract (point direction : Vec3) : ℝ :=
  (point.x * direction.x + point.y * direction.y + point.z * direction.z) /
    Real.sqrt (direction.x * direction.x + direction.y * direction.y +
      direction.z * direction.z)

/-- C1: the claim states that for every point and every nonzero direction,
`project_coord` returns the dot product divided by the Euclidean norm of the
direction.  The code does not: at point `(1,0,0)` and nonzero direction
`(1,1,0)` the source returns `1`, while the contract value is
`1 / √2 ≈ 0.7071`.  Only the last component of the dot product is divided by
the norm, so the claim is the documented intent and the code diverges from
it. -/
theorem project_coord_defect :
    project_coord ⟨1, 0, 0⟩ ⟨1, 1, 0⟩ = 1 ∧
    project_coord_contract ⟨1, 0, 0⟩ ⟨1, 1, 0⟩ = 1 / Real.sqrt 2 ∧
    project_coord ⟨1, 0, 0⟩ ⟨1, 1, 0⟩ ≠ project_coord_contract ⟨1, 0, 0⟩ ⟨1, 1, 0⟩ := by
  have h2 : (1 : ℝ) < Real.sqrt 2 := by
    have := Real.sqrt_lt_sqrt (by norm_num : (0 : ℝ) ≤ 1) (by norm_num : (1 : ℝ) < 2)
    simpa using this
  have hpos : (0 : ℝ) < Real.sqrt 2 := by linarith
  refine ⟨by simp only [project_coord]; norm_num, ?_, ?_⟩
  · simp only [project_coord_contract]
    norm_num
  · simp only [project_coord, project_coord_contract]
    norm_num

/-- C6: for every point `p` and every direction `d` of Euclidean norm
exactly 1, `project_coord p d` equals the dot product of `p` and `d` (the
division in the source divides by 1). -/
theorem project_coord_unit (p d : Vec3)
    (h : Real.sqrt (d.x * d.x + d.y * d.y + d.z * d.z) = 1) :
    project_coord p d = p.x * d.x + p.y * d.y + p.z * d.z := by
  rw [project_coord, h, div_one]

/-- Witness for C6: the unit axes from the doctest examples;
`project_coord((1,2,3),(0,1,0)) = 2`, `project_coord((1,2,3),(1,0,0)) = 1`,
`project_coord((1,2,3),(0,0,1)) = 3`. -/
theorem project_coord_unit_witness :
    project_coord ⟨1, 2, 3⟩ ⟨0, 1, 0⟩ = 2 ∧
    project_coord ⟨1, 2, 3⟩ ⟨1, 0, 0⟩ = 1 ∧
    project_coord ⟨1, 2, 3⟩ ⟨0, 0, 1⟩ = 3 := by
  refine ⟨?_, ?_, ?_⟩
  · rw [project_coord_unit ⟨1, 2, 3⟩ ⟨0, 1, 0⟩ (by norm_num)]; norm_num
  · rw [project_coord_unit ⟨1, 2, 3⟩ ⟨1, 0, 0⟩ (by norm_num)]; norm_num
  · rw [project_coord_unit ⟨1, 2, 3⟩ ⟨0, 0, 1⟩ (by norm_num)]; norm_num

/-! ## Bounding boxes, cells, construction planes
(`src/scripts/f360lib/utils.py`) -/

/-- `BRepBody.boundingBox`: an axis-aligned box given by its two corner
points. -/
structure BoundingBox where
  minPoint : Vec3
  maxPoint : Vec3

/-- A kernel solid (`BRepBody`); the embedding keeps the only attribute the
modelled code reads, its bounding box. -/
structure Body where
  boundingBox : BoundingBox

/-- A boundary-fill cell (`BRepCell`); `cellBody` is its candidate body. -/
structure Cell where
  cellBody : Body

/-- A construction plane, flattened to the `origin` and `normal` of its
`geometry`. -/
structure ConstructionPlane where
  origin : Vec3
  normal : Vec3

/-- `centroid_of_bounding_box(bb)`: `min_point + 0.5 * (min_point → max_point)`. -/
noncomputable def centroid_of_bounding_box (bb : BoundingBox) : Vec3 :=
  bb.minPoint + (0.5 : ℝ) • (bb.maxPoint - bb.minPoint)

/-- The comparison performed by `is_point_between_planes` after its assert:
`min(plane1_coord, plane2_coord) <= point_coord <= max(plane1_coord, plane2_coord)`,
all three coordinates obtained by `project_coord` along `plane1`'s normal. -/
noncomputable def between_coord (point : Vec3) (plane1 plane2 : ConstructionPlane) : Bool :=
  let normal := plane1.normal
  let plane1_coord := project_coord plane1.origin normal
  let point_coord := project_coord point normal
  let plane2_coord := project_coord plane2.origin normal
  decide (min plane1_coord plane2_coord ≤ point_coord ∧
    point_coord ≤ max plane1_coord plane2_coord)

/-- `is_point_between_planes(point, plane1, plane2)`: asserts the two plane
normals are equal, then tests the interval condition. -/
noncomputable def is_point_between_planes (point : Vec3) (plane1 plane2 : ConstructionPlane) :
    Except String Bool :=
  if plane1.normal = plane2.normal then
    Except.ok (between_coord point plane1 plane2)
  else
    Except.error "plane normals expected the same"


/-- `cell_between_planes(cells, plane1, plane2)`: maps every cell to the
centroid of its bounding box, tests each against the planes (a failing
normals assert in any test aborts the whole computation), asserts exactly one
test is true, and returns the first cell whose test is true.  (The source
falls off the end of the function when no test is true, which the preceding
assert makes unreachable; that path is modelled as an error.) -/
noncomputable def cell_between_planes (cells : List Cell)
    (plane1 plane2 : ConstructionPlane) : Except String Cell :=
  (cells.map (fun c => centroid_of_bounding_box c.cellBody.boundingBox)).mapM
      (fun v => is_point_between_planes v plane1 plane2) >>= fun in_betweens =>
    if (in_betweens.filter (fun b => b == true)).length = 1 then
      match (cells.zip in_betweens).find? (fun p => p.2 == true) with
      | some p => Except.ok p.1
      | none => Except.error "no cell between planes"
    else
      Except.error
        "Expected 1 cell in between planes. Are you sure that the wing body is not shelled?"

theorem between_coord_iff (point : Vec3) (p1 p2 : ConstructionPlane) :
    between_coord point p1 p2 = true ↔
      min (project_coord p1.origin p1.normal) (project_coord p2.origin p1.normal) ≤
          project_coord point p1.normal ∧
        project_coord point p1.normal ≤
          max (project_coord p1.origin p1.normal) (project_coord p2.origin p1.normal) := by
  simp [between_coord]

theorem between_coord_comm (point : Vec3) (p1 p2 : ConstructionPlane)
    (hn : p1.normal = p2.normal) :
    between_coord point p2 p1 = between_coord point p1 p2 := by
  simp only [between_coord, hn]
  rw [min_comm, max_comm]

theorem mapM_is_point_between (p1 p2 : ConstructionPlane) (hn : p1.normal = p2.normal)
    (vs : List Vec3) :
    vs.mapM (fun v => is_point_between_planes v p1 p2) =
      Except.ok (vs.map (fun v => between_coord v p1 p2)) := by
  induction vs with
  | nil => rfl
  | cons v t ih =>
    rw [List.mapM_cons, ih]
    simp [is_point_between_planes, hn]
    rfl

theorem zip_map_self {α β : Type} (l : List α) (f : α → β) :
    l.zip (l.map f) = l.map (fun a => (a, f a)) := by
  induction l with
  | nil => rfl
  | cons a t ih => simp [ih]

/-- The pure computation `cell_between_planes` performs once the plane
normals agree: count the qualifying cells with `between_coord`, demand
exactly one, return the first qualifying cell. -/
theorem cell_between_planes_eq (cells : List Cell) (p1 p2 : ConstructionPlane)
    (hn : p1.normal = p2.normal) :
    cell_between_planes cells p1 p2 =
      (if (cells.countP
            (fun c => between_coord (centroid_of_bounding_box c.cellBody.boundingBox) p1 p2)) = 1
        then
          match cells.find?
              (fun c => between_coord (centroid_of_bounding_box c.cellBody.boundingBox) p1 p2) with
          | some c => Except.ok c
          | none => Except.error "no cell between planes"
        else
          Except.error
            "Expected 1 cell in between planes. Are you sure that the wing body is not shelled?") := by
  have hb : ∀ (a : List Bool) (f : List Bool → Except String Cell),
      ((Except.ok a : Except String (List Bool)) >>= f) = f a := fun _ _ => rfl
  unfold cell_between_planes
  rw [mapM_is_point_between p1 p2 hn, hb, List.map_map, zip_map_self, List.find?_map]
  have hpred : ∀ (F : Cell → Bool),
      ((fun (p : Cell × Bool) => p.2 == true) ∘ fun a => (a, F a)) = F := by
    intro F
    funext a
    simp [Function.comp]
  have hcnt : ((cells.map
        ((fun v => between_coord v p1 p2) ∘
          fun c => centroid_of_bounding_box c.cellBody.boundingBox)).filter
        (fun b => b == true)).length =
      cells.countP
        (fun c => between_coord (centroid_of_bounding_box c.cellBody.boundingBox) p1 p2) := by
    rw [← List.countP_eq_length_filter, List.countP_map]
    congr 1
    funext c
    simp [Function.comp]
  rw [hcnt, hpred]
  by_cases hc :
      cells.countP
        (fun c => between_coord (centroid_of_bounding_box c.cellBody.boundingBox) p1 p2) = 1
  · rw [if_pos hc, if_pos hc]
    cases hf : cells.find?
        (((fun v => between_coord v p1 p2) ∘
          fun c => centroid_of_bounding_box c.cellBody.boundingBox)) with
    | none =>
      have : cells.find?
          (fun c => between_coord (centroid_of_bounding_box c.cellBody.boundingBox) p1 p2) =
          none := hf
      rw [this]
      rfl
    | some c =>
      have : cells.find?
          (fun c => between_coord (centroid_of_bounding_box c.cellBody.boundingBox) p1 p2) =
          some c := hf
      rw [this]
      rfl
  · rw [if_neg hc, if_neg hc]

/-- C2: for cells bounded by two planes with identical normals, the
plane-interval strategy (i) is independent of the order of the two planes,
(ii) returns only a cell of the list whose bounding-box centroid projects
into the closed interval of the two planes' projected origins, (iii) succeeds
exactly when one cell qualifies, (iv) returns any qualifying member when
exactly one qualifies, and (v) fails hard when the qualifying count is not
one. -/
theorem cell_between_planes_spec (cells : List Cell) (p1 p2 : ConstructionPlane)
    (hn : p1.normal = p2.normal) (hlen : cells.length = 2 ∨ cells.length = 3) :
    cell_between_planes cells p1 p2 = cell_between_planes cells p2 p1 ∧
    (∀ c, cell_between_planes cells p1 p2 = Except.ok c →
      c ∈ cells ∧
        min (project_coord p1.origin p1.normal) (project_coord p2.origin p1.normal) ≤
          project_coord (centroid_of_bounding_box c.cellBody.boundingBox) p1.normal ∧
        project_coord (centroid_of_bounding_box c.cellBody.boundingBox) p1.normal ≤
          max (project_coord p1.origin p1.normal) (project_coord p2.origin p1.normal)) ∧
    ((∃ c, cell_between_planes cells p1 p2 = Except.ok c) ↔
      cells.countP
        (fun c => between_coord (centroid_of_bounding_box c.cellBody.boundingBox) p1 p2) = 1) ∧
    (∀ c, c ∈ cells →
      between_coord (centroid_of_bounding_box c.cellBody.boundingBox) p1 p2 = true →
      cells.countP
        (fun c => between_coord (centroid_of_bounding_box c.cellBody.boundingBox) p1 p2) = 1 →
      cell_between_planes cells p1 p2 = Except.ok c) ∧
    (cells.countP
        (fun c => between_coord (centroid_of_bounding_box c.cellBody.boundingBox) p1 p2) ≠ 1 →
      cell_between_planes cells p1 p2 =
        Except.error
          "Expected 1 cell in between planes. Are you sure that the wing body is not shelled?") := by
  clear hlen
  have he := cell_between_planes_eq cells p1 p2 hn
  have he' := cell_between_planes_eq cells p2 p1 hn.symm
  have hFeq : (fun (c : Cell) =>
        between_coord (centroid_of_bounding_box c.cellBody.boundingBox) p2 p1) =
      (fun (c : Cell) =>
        between_coord (centroid_of_bounding_box c.cellBody.boundingBox) p1 p2) := by
    funext c
    exact between_coord_comm _ p1 p2 hn
  rw [hFeq] at he'
  refine ⟨he.trans he'.symm, ?_, ?_, ?_, ?_⟩
  · intro c hok
    rw [he] at hok
    by_cases hc : cells.countP
        (fun c => between_coord (centroid_of_bounding_box c.cellBody.boundingBox) p1 p2) = 1
    · rw [if_pos hc] at hok
      cases hf : cells.find?
          (fun c => between_coord (centroid_of_bounding_box c.cellBody.boundingBox) p1 p2) with
      | none => rw [hf] at hok; exact absurd hok (by simp)
      | some c' =>
        rw [hf] at hok
        have hcc : c' = c := by simpa using hok
        subst hcc
        refine ⟨List.mem_of_find?_eq_some hf, ?_⟩
        have := List.find?_some hf
        exact (between_coord_iff _ p1 p2).mp this
    · rw [if_neg hc] at hok
      exact absurd hok (by simp)
  · constructor
    · rintro ⟨c, hok⟩
      rw [he] at hok
      by_cases hc : cells.countP
          (fun c => between_coord (centroid_of_bounding_box c.cellBody.boundingBox) p1 p2) = 1
      · exact hc
      · rw [if_neg hc] at hok; exact absurd hok (by simp)
    · intro hc
      have hex : ∃ c ∈ cells,
          between_coord (centroid_of_bounding_box c.cellBody.boundingBox) p1 p2 := by
        refine List.countP_pos_iff.mp ?_
        omega
      obtain ⟨c, hmem, hF⟩ := hex
      have hsome : (cells.find?
          (fun c => between_coord (centroid_of_bounding_box c.cellBody.boundingBox) p1 p2)).isSome := by
        rw [List.find?_isSome]
        exact ⟨c, hmem, hF⟩
      obtain ⟨c', hc'⟩ := Option.isSome_iff_exists.mp hsome
      refine ⟨c', ?_⟩
      rw [he, if_pos hc, hc']
  · intro c hmem hF hc
    rw [he, if_pos hc]
    have hfl : (cells.filter
        (fun c => between_coord (centroid_of_bounding_box c.cellBody.boundingBox) p1 p2)).length
        = 1 := by
      rw [← List.countP_eq_length_filter]
      exact hc
    obtain ⟨a, ha⟩ := List.length_eq_one.mp hfl
    have hca : c = a := by
      have hin : c ∈ cells.filter
          (fun c => between_coord (centroid_of_bounding_box c.cellBody.boundingBox) p1 p2) :=
        List.mem_filter.mpr ⟨hmem, hF⟩
      rw [ha] at hin
      simpa using hin
    cases hf : cells.find?
        (fun c => between_coord (centroid_of_bounding_box c.cellBody.boundingBox) p1 p2) with
    | none =>
      have hks : (cells.find?
          (fun c => between_coord (centroid_of_bounding_box c.cellBody.boundingBox) p1 p2)).isSome :=
        List.find?_isSome.mpr ⟨c, hmem, hF⟩
      rw [hf] at hks
      simp at hks
    | some c' =>
      have hmem' := List.mem_of_find?_eq_some hf
      have hFc' : between_coord (centroid_of_bounding_box c'.cellBody.boundingBox) p1 p2 = true := by
        have := List.find?_some hf
        simpa using this
      have hc'a : c' = a := by
        have hin : c' ∈ cells.filter
            (fun c => between_coord (centroid_of_bounding_box c.cellBody.boundingBox) p1 p2) :=
          List.mem_filter.mpr ⟨hmem', hFc'⟩
        rw [ha] at hin
        simpa using hin
      rw [hca, ← hc'a]
  · intro hc
    rw [he, if_neg hc]

/-- Witness for C2: two cells whose centroids project to `1` and `3` along
the shared normal `(0,1,0)`, planes projecting to `0` and `2`; the cell at
`1` is selected, independently of plane order. -/
theorem cell_between_planes_spec_witness :
    cell_between_planes [⟨⟨⟨⟨0, 1, 0⟩, ⟨0, 1, 0⟩⟩⟩⟩, ⟨⟨⟨⟨0, 3, 0⟩, ⟨0, 3, 0⟩⟩⟩⟩]
        ⟨⟨0, 0, 0⟩, ⟨0, 1, 0⟩⟩ ⟨⟨0, 2, 0⟩, ⟨0, 1, 0⟩⟩ =
      Except.ok ⟨⟨⟨⟨0, 1, 0⟩, ⟨0, 1, 0⟩⟩⟩⟩ ∧
    cell_between_planes [⟨⟨⟨⟨0, 1, 0⟩, ⟨0, 1, 0⟩⟩⟩⟩, ⟨⟨⟨⟨0, 3, 0⟩, ⟨0, 3, 0⟩⟩⟩⟩]
        ⟨⟨0, 2, 0⟩, ⟨0, 1, 0⟩⟩ ⟨⟨0, 0, 0⟩, ⟨0, 1, 0⟩⟩ =
      Except.ok ⟨⟨⟨⟨0, 1, 0⟩, ⟨0, 1, 0⟩⟩⟩⟩ := by
  have hproj : ∀ v : Vec3, project_coord v ⟨0, 1, 0⟩ = v.y := by
    intro v
    simp only [project_coord]
    norm_num
  have hcent1 : centroid_of_bounding_box ⟨⟨0, 1, 0⟩, ⟨0, 1, 0⟩⟩ = (⟨0, 1, 0⟩ : Vec3) := by
    rw [Vec3.ext_iff3]
    simp [centroid_of_bounding_box]
  have hcent2 : centroid_of_bounding_box ⟨⟨0, 3, 0⟩, ⟨0, 3, 0⟩⟩ = (⟨0, 3, 0⟩ : Vec3) := by
    rw [Vec3.ext_iff3]
    simp [centroid_of_bounding_box]
  have hF1 : between_coord
      (centroid_of_bounding_box (⟨⟨⟨⟨0, 1, 0⟩, ⟨0, 1, 0⟩⟩⟩⟩ : Cell).cellBody.boundingBox)
      ⟨⟨0, 0, 0⟩, ⟨0, 1, 0⟩⟩ ⟨⟨0, 2, 0⟩, ⟨0, 1, 0⟩⟩ = true := by
    show between_coord (centroid_of_bounding_box ⟨⟨0, 1, 0⟩, ⟨0, 1, 0⟩⟩) _ _ = true
    rw [hcent1, between_coord_iff]
    rw [hproj, hproj, hproj]
    norm_num
  have hF2 : between_coord
      (centroid_of_bounding_box (⟨⟨⟨⟨0, 3, 0⟩, ⟨0, 3, 0⟩⟩⟩⟩ : Cell).cellBody.boundingBox)
      ⟨⟨0, 0, 0⟩, ⟨0, 1, 0⟩⟩ ⟨⟨0, 2, 0⟩, ⟨0, 1, 0⟩⟩ = false := by
    show between_coord (centroid_of_bounding_box ⟨⟨0, 3, 0⟩, ⟨0, 3, 0⟩⟩) _ _ = false
    rw [hcent2]
    simp only [between_coord, hproj]
    rw [decide_eq_false_iff_not]
    norm_num
  have hcnt : ([⟨⟨⟨⟨0, 1, 0⟩, ⟨0, 1, 0⟩⟩⟩⟩, ⟨⟨⟨⟨0, 3, 0⟩, ⟨0, 3, 0⟩⟩⟩⟩] : List Cell).countP
      (fun c => between_coord (centroid_of_bounding_box c.cellBody.boundingBox)
        ⟨⟨0, 0, 0⟩, ⟨0, 1, 0⟩⟩ ⟨⟨0, 2, 0⟩, ⟨0, 1, 0⟩⟩) = 1 := by
    rw [List.countP_cons, List.countP_cons, List.countP_nil]
    rw [hF1, hF2]
    norm_num
  have hspec := cell_between_planes_spec
    [⟨⟨⟨⟨0, 1, 0⟩, ⟨0, 1, 0⟩⟩⟩⟩, ⟨⟨⟨⟨0, 3, 0⟩, ⟨0, 3, 0⟩⟩⟩⟩]
    ⟨⟨0, 0, 0⟩, ⟨0, 1, 0⟩⟩ ⟨⟨0, 2, 0⟩, ⟨0, 1, 0⟩⟩ rfl (Or.inl rfl)
  have hmain := hspec.2.2.2.1 ⟨⟨⟨⟨0, 1, 0⟩, ⟨0, 1, 0⟩⟩⟩⟩ (by simp) hF1 hcnt
  exact ⟨hmain, hspec.1 ▸ hmain⟩

/-! ## Boundary fill between planes (`boundary_fill_between_planes`,
`src/scripts/f360lib/utils.py`).

The kernel interaction is modelled by an environment: `cells` is what
`boundary_fill_input.bRepCells` holds, `addedBodies` is what
`boundary_fill_feature.bodies` reports after `boundaryFillFeatures.add`, and
`cancelRaises` says whether `boundary_fill_input.cancel()` itself raises.
The side effects of the transaction are recorded as an event trace. -/

/-- Observable events of one boundary-fill transaction. -/
inductive FillEv where
  | select
  | add
  | cancel
  | cancelFailed
  | raised
deriving DecidableEq

/-- Kernel responses for one `boundary_fill_between_planes` call. -/
structure FillEnv where
  cells : List Cell
  addedBodies : List Body
  cancelRaises : Bool

/-- The `try:` block of `boundary_fill_between_planes`: demand 2 or 3 cells,
disambiguate with `cell_between_planes`, select the cell, add the boundary
fill and assert it produced a single body. -/
noncomputable def boundary_fill_attempt (env : FillEnv) (plane1 plane2 : ConstructionPlane) :
    Except String Body × List FillEv :=
  if env.cells.length = 2 ∨ env.cells.length = 3 then
    match cell_between_planes env.cells plane1 plane2 with
    | Except.error e => (Except.error e, [])
    | Except.ok _cell =>
      match env.addedBodies with
      | [rib_body] => (Except.ok rib_body, [FillEv.select, FillEv.add])
      | _ =>
        (Except.error "expected a single rib body to be created",
          [FillEv.select, FillEv.add])
  else
    (Except.error
      ("Expected exactly 2 or 3 cells for boundary fill. Got " ++
        toString env.cells.length ++ "!"), [])

/-- `boundary_fill_between_planes`: run the `try:` block; on success return
the rib body; on any failure cancel the pending boundary-fill transaction
(swallowing a failure of the cancellation itself) and re-raise the original
error. -/
noncomputable def boundary_fill_between_planes (env : FillEnv)
    (plane1 plane2 : ConstructionPlane) : Except String Body × List FillEv :=
  match boundary_fill_attempt env plane1 plane2 with
  | (Except.ok rib_body, tr) => (Except.ok rib_body, tr)
  | (Except.error e, tr) =>
    (Except.error e,
      tr ++ (if env.cancelRaises then [FillEv.cancel, FillEv.cancelFailed]
        else [FillEv.cancel]) ++ [FillEv.raised])

theorem boundary_fill_attempt_trace (env : FillEnv) (p1 p2 : ConstructionPlane) :
    (boundary_fill_attempt env p1 p2).2 = [] ∨
      (boundary_fill_attempt env p1 p2).2 = [FillEv.select, FillEv.add] := by
  unfold boundary_fill_attempt
  repeat' split
  all_goals simp

theorem boundary_fill_attempt_cancel_free (env : FillEnv) (p1 p2 : ConstructionPlane) :
    FillEv.cancel ∉ (boundary_fill_attempt env p1 p2).2 ∧
      FillEv.raised ∉ (boundary_fill_attempt env p1 p2).2 := by
  rcases boundary_fill_attempt_trace env p1 p2 with h | h <;> rw [h] <;> simp

theorem boundary_fill_attempt_cancelRaises (env : FillEnv) (p1 p2 : ConstructionPlane)
    (b : Bool) :
    boundary_fill_attempt ⟨env.cells, env.addedBodies, b⟩ p1 p2 =
      boundary_fill_attempt env p1 p2 := rfl

/-- C3: a kernel cell count other than 2 or 3 makes
`boundary_fill_between_planes` fail with the cell-count error without
selecting or committing any cell; moreover every failure of the function
cancels the pending transaction before the error is re-raised, and a failure
of the cancellation itself is swallowed: the original error is the one
returned whether or not `cancel()` raises. -/
theorem boundary_fill_invalid_count (env : FillEnv) (p1 p2 : ConstructionPlane)
    (h2 : env.cells.length ≠ 2) (h3 : env.cells.length ≠ 3) :
    (boundary_fill_between_planes env p1 p2).1 =
      Except.error
        ("Expected exactly 2 or 3 cells for boundary fill. Got " ++
          toString env.cells.length ++ "!") ∧
    FillEv.add ∉ (boundary_fill_between_planes env p1 p2).2 ∧
    FillEv.select ∉ (boundary_fill_between_planes env p1 p2).2 ∧
    FillEv.cancel ∈ (boundary_fill_between_planes env p1 p2).2 ∧
    (∀ (env' : FillEnv) (q1 q2 : ConstructionPlane) (e : String),
      (boundary_fill_between_planes env' q1 q2).1 = Except.error e →
      ∃ pre, (boundary_fill_between_planes env' q1 q2).2 =
          pre ++ (if env'.cancelRaises then [FillEv.cancel, FillEv.cancelFailed]
            else [FillEv.cancel]) ++ [FillEv.raised] ∧
        FillEv.cancel ∉ pre ∧ FillEv.raised ∉ pre ∧
        (boundary_fill_between_planes ⟨env'.cells, env'.addedBodies, true⟩ q1 q2).1 =
          Except.error e ∧
        (boundary_fill_between_planes ⟨env'.cells, env'.addedBodies, false⟩ q1 q2).1 =
          Except.error e) := by
  have hattempt : boundary_fill_attempt env p1 p2 =
      (Except.error
        ("Expected exactly 2 or 3 cells for boundary fill. Got " ++
          toString env.cells.length ++ "!"), []) := by
    have hcond : ¬(env.cells.length = 2 ∨ env.cells.length = 3) := by
      push_neg
      exact ⟨h2, h3⟩
    unfold boundary_fill_attempt
    rw [if_neg hcond]
  have hmain : boundary_fill_between_planes env p1 p2 =
      (Except.error
        ("Expected exactly 2 or 3 cells for boundary fill. Got " ++
          toString env.cells.length ++ "!"),
        [] ++ (if env.cancelRaises then [FillEv.cancel, FillEv.cancelFailed]
          else [FillEv.cancel]) ++ [FillEv.raised]) := by
    unfold boundary_fill_between_planes
    rw [hattempt]
  refine ⟨by rw [hmain], ?_, ?_, ?_, ?_⟩
  · rw [hmain]
    cases hb : env.cancelRaises <;> simp
  · rw [hmain]
    cases hb : env.cancelRaises <;> simp
  · rw [hmain]
    cases hb : env.cancelRaises <;> simp
  · intro env' q1 q2 e he
    refine ⟨(boundary_fill_attempt env' q1 q2).2, ?_, ?_, ?_, ?_, ?_⟩
    · rcases hr : boundary_fill_attempt env' q1 q2 with ⟨res, tr⟩
      cases res with
      | ok b =>
        exfalso
        have : (boundary_fill_between_planes env' q1 q2).1 = Except.ok b := by
          unfold boundary_fill_between_planes
          rw [hr]
        rw [he] at this
        exact absurd this (by simp)
      | error e' =>
        have : boundary_fill_between_planes env' q1 q2 =
            (Except.error e',
              tr ++ (if env'.cancelRaises then [FillEv.cancel, FillEv.cancelFailed]
                else [FillEv.cancel]) ++ [FillEv.raised]) := by
          unfold boundary_fill_between_planes
          rw [hr]
        rw [this]
    · exact (boundary_fill_attempt_cancel_free env' q1 q2).1
    · exact (boundary_fill_attempt_cancel_free env' q1 q2).2
    · rcases hr : boundary_fill_attempt env' q1 q2 with ⟨res, tr⟩
      cases res with
      | ok b =>
        exfalso
        have : (boundary_fill_between_planes env' q1 q2).1 = Except.ok b := by
          unfold boundary_fill_between_planes
          rw [hr]
        rw [he] at this
        exact absurd this (by simp)
      | error e' =>
        have heq : (boundary_fill_between_planes env' q1 q2).1 = Except.error e' := by
          unfold boundary_fill_between_planes
          rw [hr]
        have he' : e' = e := by
          rw [he] at heq
          simpa using heq.symm
        subst he'
        unfold boundary_fill_between_planes
        rw [boundary_fill_attempt_cancelRaises env' q1 q2 true, hr]
    · rcases hr : boundary_fill_attempt env' q1 q2 with ⟨res, tr⟩
      cases res with
      | ok b =>
        exfalso
        have : (boundary_fill_between_planes env' q1 q2).1 = Except.ok b := by
          unfold boundary_fill_between_planes
          rw [hr]
        rw [he] at this
        exact absurd this (by simp)
      | error e' =>
        have heq : (boundary_fill_between_planes env' q1 q2).1 = Except.error e' := by
          unfold boundary_fill_between_planes
          rw [hr]
        have he' : e' = e := by
          rw [he] at heq
          simpa using heq.symm
        subst he'
        unfold boundary_fill_between_planes
        rw [boundary_fill_attempt_cancelRaises env' q1 q2 false, hr]

/-- Witness for C3: a boundary fill that produced 4 cells fails with the
cell-count error, commits nothing, and cancels the transaction. -/
theorem boundary_fill_invalid_count_witness :
    (boundary_fill_between_planes
        ⟨[⟨⟨⟨⟨0, 0, 0⟩, ⟨0, 0, 0⟩⟩⟩⟩, ⟨⟨⟨⟨0, 1, 0⟩, ⟨0, 1, 0⟩⟩⟩⟩,
          ⟨⟨⟨⟨0, 2, 0⟩, ⟨0, 2, 0⟩⟩⟩⟩, ⟨⟨⟨⟨0, 3, 0⟩, ⟨0, 3, 0⟩⟩⟩⟩], [], true⟩
        ⟨⟨0, 0, 0⟩, ⟨0, 1, 0⟩⟩ ⟨⟨0, 2, 0⟩, ⟨0, 1, 0⟩⟩).1 =
      Except.error "Expected exactly 2 or 3 cells for boundary fill. Got 4!" ∧
    FillEv.add ∉ (boundary_fill_between_planes
        ⟨[⟨⟨⟨⟨0, 0, 0⟩, ⟨0, 0, 0⟩⟩⟩⟩, ⟨⟨⟨⟨0, 1, 0⟩, ⟨0, 1, 0⟩⟩⟩⟩,
          ⟨⟨⟨⟨0, 2, 0⟩, ⟨0, 2, 0⟩⟩⟩⟩, ⟨⟨⟨⟨0, 3, 0⟩, ⟨0, 3, 0⟩⟩⟩⟩], [], true⟩
        ⟨⟨0, 0, 0⟩, ⟨0, 1, 0⟩⟩ ⟨⟨0, 2, 0⟩, ⟨0, 1, 0⟩⟩).2 ∧
    FillEv.cancel ∈ (boundary_fill_between_planes
        ⟨[⟨⟨⟨⟨0, 0, 0⟩, ⟨0, 0, 0⟩⟩⟩⟩, ⟨⟨⟨⟨0, 1, 0⟩, ⟨0, 1, 0⟩⟩⟩⟩,
          ⟨⟨⟨⟨0, 2, 0⟩, ⟨0, 2, 0⟩⟩⟩⟩, ⟨⟨⟨⟨0, 3, 0⟩, ⟨0, 3, 0⟩⟩⟩⟩], [], true⟩
        ⟨⟨0, 0, 0⟩, ⟨0, 1, 0⟩⟩ ⟨⟨0, 2, 0⟩, ⟨0, 1, 0⟩⟩).2 := by
  have h := boundary_fill_invalid_count
    ⟨[⟨⟨⟨⟨0, 0, 0⟩, ⟨0, 0, 0⟩⟩⟩⟩, ⟨⟨⟨⟨0, 1, 0⟩, ⟨0, 1, 0⟩⟩⟩⟩,
      ⟨⟨⟨⟨0, 2, 0⟩, ⟨0, 2, 0⟩⟩⟩⟩, ⟨⟨⟨⟨0, 3, 0⟩, ⟨0, 3, 0⟩⟩⟩⟩], [], true⟩
    ⟨⟨0, 0, 0⟩, ⟨0, 1, 0⟩⟩ ⟨⟨0, 2, 0⟩, ⟨0, 1, 0⟩⟩ (by simp) (by simp)
  exact ⟨h.1, h.2.1, h.2.2.2.1⟩

/-! ## Rib post positions (`src/scripts/CreateWingRibs/CreateWingRibs.py`,
`src/scripts/f360lib/utils.py::relative_location`,
`src/scripts/f360lib/wing.py::create_rib`).

Scalars here involve no square roots, so they are modelled over `ℚ`. -/

/-- `relative_location(from_loc, to_loc, frac)`: the location a given
fraction of the way from `from_loc` to `to_loc`. -/
def relative_location (from_loc to_loc frac : ℚ) : ℚ :=
  from_loc + (to_loc - from_loc) * frac

/-- `rib_vertical_fracs` in `CreateWingRibs.run`:
`[r / chord_length for r in settings.RIB_POST_ROOT_LOCS_CM]`, the declared
absolute root positions divided by the root chord length. -/
def rib_vertical_fracs (rib_post_root_locs : List ℚ) (chord_length : ℚ) : List ℚ :=
  rib_post_root_locs.map (fun r => r / chord_length)

/-- The resolution of rib-post chordwise locations for one station:
`CreateWingRibs.run` reads `settings.RIB_POST_LOC_TYPE` into the local
`rib_post_loc_type` and then never consults it; the fractions are always
computed from the root chord and reapplied by `create_rib` through
`relative_location` over the station's local chordwise extremities
(`rib_post_locs = [relative_location(start_coord, end_coord, frac) ...]`). -/
def resolve_rib_post_locs (rib_post_loc_type : String) (rib_post_root_locs : List ℚ)
    (root_chord_length : ℚ) (start_coord end_coord : ℚ) : List ℚ :=
  (rib_vertical_fracs rib_post_root_locs root_chord_length).map
    (fun frac => relative_location start_coord end_coord frac)

/-- C5: the claim states the configuration flag selects between absolute and
proportional placement.  The code reads the flag and ignores it: placement is
always proportional.  For root chord 10, declared root position 2.5 and a
station with local chord 8 the code resolves 2.0 under the flag value
"absolute" as well (the claim requires 2.5 there), and the resolved positions
are identical for any two flag values.  The proportional arithmetic itself
(fraction 0.25, resolved position 2.0) is as claimed. -/
theorem rib_post_flag_ignored :
    rib_vertical_fracs [5 / 2] 10 = [1 / 4] ∧
    resolve_rib_post_locs "proportional" [5 / 2] 10 0 8 = [2] ∧
    resolve_rib_post_locs "absolute" [5 / 2] 10 0 8 = [2] ∧
    resolve_rib_post_locs "absolute" [5 / 2] 10 0 8 ≠ [5 / 2] ∧
    (∀ (flag1 flag2 : String) (locs : List ℚ) (chord s e : ℚ),
      resolve_rib_post_locs flag1 locs chord s e =
        resolve_rib_post_locs flag2 locs chord s e) := by
  refine ⟨?_, ?_, ?_, ?_, fun _ _ _ _ _ _ => rfl⟩
  · norm_num [rib_vertical_fracs]
  · norm_num [resolve_rib_post_locs, rib_vertical_fracs, relative_location]
  · norm_num [resolve_rib_post_locs, rib_vertical_fracs, relative_location]
  · norm_num [resolve_rib_post_locs, rib_vertical_fracs, relative_location]

/-! ## The orchestrator loop (`run` in
`src/scripts/CreateWingRibs/CreateWingRibs.py` and
`src/scripts/CreateSpars/CreateSpars.py`).

`for rib_id, rs in enumerate(settings.RIB_STATIONS_CM): rib_name =
"rib_".format(rib_id + 1); create_rib(...)` — one member per station, named
by 1-based position; the first raised exception aborts the loop and is caught
by the top-level handler, which undoes nothing.  The builder is abstracted as
a function from the member name and the station datum to `Except`. -/

/-- The deterministic member name: `"<kind>_<1-based index>"` where `idx` is
the 0-based loop index. -/
def member_name (kind : String) (idx : Nat) : String :=
  kind ++ "_" ++ toString (idx + 1)

/-- The station loop, carrying the current 0-based index: on success the
named member is appended and the loop continues; the first failure stops the
loop, keeps the members already created, and reports the error. -/
def build_members {α μ ε : Type} (kind : String) (build : String → α → Except ε μ) :
    Nat → List α → List (String × μ) × Option ε
  | _, [] => ([], none)
  | i, s :: rest =>
    match build (member_name kind i) s with
    | Except.error e => ([], some e)
    | Except.ok m =>
      match build_members kind build (i + 1) rest with
      | (ms, err) => ((member_name kind i, m) :: ms, err)

/-- The whole run over the declared station list. -/
def run_stations {α μ ε : Type} (kind : String) (build : String → α → Except ε μ)
    (stations : List α) : List (String × μ) × Option ε :=
  build_members kind build 0 stations

/-- The member list a run starting at index `i` is expected to produce when
the builder returns the bodies `ws` in order. -/
def expected_members {μ : Type} (kind : String) : Nat → List μ → List (String × μ)
  | _, [] => []
  | i, w :: rest => (member_name kind i, w) :: expected_members kind (i + 1) rest

theorem expected_members_names {μ : Type} (kind : String) :
    ∀ (i : Nat) (ws : List μ),
      (expected_members kind i ws).map Prod.fst =
        (List.range ws.length).map (fun j => member_name kind (i + j)) := by
  intro i ws
  induction ws generalizing i with
  | nil => rfl
  | cons w rest ih =>
    show member_name kind i :: (expected_members kind (i + 1) rest).map Prod.fst = _
    rw [ih (i + 1), List.length_cons, List.range_succ_eq_map, List.map_cons, List.map_map]
    refine congrArg₂ _ (by rw [Nat.add_zero]) ?_
    apply List.map_congr_left
    intro j _
    show member_name kind (i + 1 + j) = member_name kind (i + (j + 1))
    rw [Nat.add_assoc, Nat.add_comm 1 j]

theorem build_members_ok_all {α μ ε : Type} (kind : String)
    (build : String → α → Except ε μ) :
    ∀ (i : Nat) (stations : List α) (ws : List μ) (hw : ws.length = stations.length),
      (∀ j (hj : j < stations.length),
        build (member_name kind (i + j)) (stations.get ⟨j, hj⟩) =
          Except.ok (ws.get ⟨j, by omega⟩)) →
      build_members kind build i stations = (expected_members kind i ws, none) := by
  intro i stations
  induction stations generalizing i with
  | nil =>
    intro ws hw _
    rw [List.eq_nil_of_length_eq_zero hw]
    rfl
  | cons a rest ih =>
    intro ws hw h
    cases ws with
    | nil => simp at hw
    | cons w ws' =>
      have h0 := h 0 (by simp)
      rw [Nat.add_zero] at h0
      have hrec : build_members kind build (i + 1) rest = (expected_members kind (i + 1) ws', none) := by
        apply ih (i + 1) ws' (by simpa using hw)
        intro j hj
        have hj' : j + 1 < (a :: rest).length := by simpa using Nat.succ_lt_succ hj
        have := h (j + 1) hj'
        rw [show i + (j + 1) = i + 1 + j by omega] at this
        exact this
      have h0' : build (member_name kind i) a = Except.ok w := h0
      show (match build (member_name kind i) a with
        | Except.error e => ([], some e)
        | Except.ok m =>
          match build_members kind build (i + 1) rest with
          | (ms, err) => ((member_name kind i, m) :: ms, err)) = _
      rw [h0', hrec]
      rfl

theorem build_members_fails {α μ ε : Type} (kind : String)
    (build : String → α → Except ε μ) :
    ∀ (i : Nat) (pre : List α) (ws : List μ) (hw : ws.length = pre.length),
      (∀ j (hj : j < pre.length),
        build (member_name kind (i + j)) (pre.get ⟨j, hj⟩) =
          Except.ok (ws.get ⟨j, by omega⟩)) →
      ∀ (s : α) (e : ε), build (member_name kind (i + pre.length)) s = Except.error e →
      ∀ (post : List α),
        build_members kind build i (pre ++ s :: post) =
          (expected_members kind i ws, some e) := by
  intro i pre
  induction pre generalizing i with
  | nil =>
    intro ws hw _ s e hs post
    rw [List.eq_nil_of_length_eq_zero hw]
    have hs' : build (member_name kind i) s = Except.error e := hs
    show (match build (member_name kind i) s with
      | Except.error e => ([], some e)
      | Except.ok m =>
        match build_members kind build (i + 1) post with
        | (ms, err) => ((member_name kind i, m) :: ms, err)) = _
    rw [hs']
    rfl
  | cons a rest ih =>
    intro ws hw h s e hs post
    cases ws with
    | nil => simp at hw
    | cons w ws' =>
      have h0 := h 0 (by simp)
      rw [Nat.add_zero] at h0
      have hs' : build (member_name kind (i + 1 + ws'.length)) s = Except.error e := by
        have hl : i + (a :: rest).length = i + 1 + ws'.length := by
          have : ws'.length = rest.length := by simpa using hw
          simp [this]
          omega
        rw [hl] at hs
        exact hs
      have hrec := ih (i + 1) ws' (by simpa using hw)
        (by
          intro j hj
          have hj' : j + 1 < (a :: rest).length := by simpa using Nat.succ_lt_succ hj
          have := h (j + 1) hj'
          rw [show i + (j + 1) = i + 1 + j by omega] at this
          exact this)
        s e (by rw [show i + 1 + rest.length = i + 1 + ws'.length by
          have : ws'.length = rest.length := by simpa using hw
          omega]; exact hs') post
      have h0' : build (member_name kind i) a = Except.ok w := h0
      show (match build (member_name kind i) a with
        | Except.error e => ([], some e)
        | Except.ok m =>
          match build_members kind build (i + 1) (rest ++ s :: post) with
          | (ms, err) => ((member_name kind i, m) :: ms, err)) = _
      rw [h0', hrec]
      rfl

/-- C7: the orchestrator processes the declared station list in order.  When
every station builds, one member per station is produced, named
`<kind>_<1-based index>` by declared position.  When the first failure occurs
at 0-based position `pre.length`, the run keeps exactly the members of the
stations before it (still correctly named), reports that error, and the
stations after the failing one are never consulted (the result does not
depend on them at all). -/
theorem run_stations_spec {α μ ε : Type} (kind : String)
    (build : String → α → Except ε μ) :
    (∀ (stations : List α) (ws : List μ) (hw : ws.length = stations.length),
      (∀ j (hj : j < stations.length),
        build (member_name kind j) (stations.get ⟨j, hj⟩) =
          Except.ok (ws.get ⟨j, by omega⟩)) →
      run_stations kind build stations = (expected_members kind 0 ws, none) ∧
      (run_stations kind build stations).1.map Prod.fst =
        (List.range stations.length).map (fun j => member_name kind j)) ∧
    (∀ (pre : List α) (s : α) (post : List α) (ws : List μ) (e : ε)
      (hw : ws.length = pre.length),
      (∀ j (hj : j < pre.length),
        build (member_name kind j) (pre.get ⟨j, hj⟩) =
          Except.ok (ws.get ⟨j, by omega⟩)) →
      build (member_name kind pre.length) s = Except.error e →
      run_stations kind build (pre ++ s :: post) = (expected_members kind 0 ws, some e) ∧
      (∀ post', run_stations kind build (pre ++ s :: post') =
        run_stations kind build (pre ++ s :: post)) ∧
      (run_stations kind build (pre ++ s :: post)).1.map Prod.fst =
        (List.range pre.length).map (fun j => member_name kind j)) := by
  constructor
  · intro stations ws hw h
    have hmain : run_stations kind build stations = (expected_members kind 0 ws, none) := by
      apply build_members_ok_all kind build 0 stations ws hw
      intro j hj
      rw [Nat.zero_add]
      exact h j hj
    refine ⟨hmain, ?_⟩
    rw [hmain]
    show (expected_members kind 0 ws).map Prod.fst = _
    rw [expected_members_names kind 0 ws, hw]
    apply List.map_congr_left
    intro j _
    rw [Nat.zero_add]
  · intro pre s post ws e hw h hs
    have hmain : ∀ post',
        run_stations kind build (pre ++ s :: post') = (expected_members kind 0 ws, some e) := by
      intro post'
      apply build_members_fails kind build 0 pre ws hw
      · intro j hj
        rw [Nat.zero_add]
        exact h j hj
      · rw [Nat.zero_add]
        exact hs
    refine ⟨hmain post, fun post' => (hmain post').trans (hmain post).symm, ?_⟩
    rw [hmain post]
    show (expected_members kind 0 ws).map Prod.fst = _
    rw [expected_members_names kind 0 ws, hw]
    apply List.map_congr_left
    intro j _
    rw [Nat.zero_add]

/-- Witness for C7: three stations, the builder fails on the second; `rib_1`
is kept with its value, the error is reported, and replacing the third
station changes nothing because it is never attempted. -/
theorem run_stations_spec_witness :
    run_stations "rib"
        (fun _ s => if s = (2 : ℚ) then Except.error "station failed" else Except.ok s)
        [1, 2, 3] = ([("rib_1", (1 : ℚ))], some "station failed") ∧
    run_stations "rib"
        (fun _ s => if s = (2 : ℚ) then Except.error "station failed" else Except.ok s)
        [1, 2, 4] =
      run_stations "rib"
        (fun _ s => if s = (2 : ℚ) then Except.error "station failed" else Except.ok s)
        [1, 2, 3] := by
  have h := (run_stations_spec "rib"
      (fun _ s => if s = (2 : ℚ) then Except.error "station failed" else Except.ok s)).2
    [1] 2 [3] [1] "station failed" (by simp)
    (by
      intro j hj
      have hj0 : j = 0 := by
        simp only [List.length_singleton] at hj
        omega
      subst hj0
      simp)
    (by simp)
  refine ⟨?_, ?_⟩
  · have := h.1
    rw [show ([1] ++ 2 :: [3] : List ℚ) = [1, 2, 3] from rfl] at this
    rw [this]
    rfl
  · have h4 := h.2.1 [4]
    rw [show ([1] ++ 2 :: [3] : List ℚ) = [1, 2, 3] from rfl,
      show ([1] ++ 2 :: [4] : List ℚ) = [1, 2, 4] from rfl] at h4
    exact h4

/-! ## Spar perforation centers (`create_spar_from_line`,
`src/scripts/CreateSpars/CreateSpars.py`):

```
loc = min_spanwise + settings.SPAR_CIRCLE_SPACING_CM
while loc + settings.SPAR_CIRCLE_DIAMETER_CM / 2 < max_spanwise:
    circle_locs.append(loc)
    loc = loc + settings.SPAR_CIRCLE_SPACING_CM
```

The unbounded `while` is modelled with an explicit fuel parameter; the loop
terminates exactly when some fuel reproduces the same list as every larger
fuel. -/

/-- One fuelled run of the `while` loop body, starting at `loc`. -/
def circle_locs_loop (spacing diameter max_spanwise : ℚ) : Nat → ℚ → List ℚ
  | 0, _ => []
  | fuel + 1, loc =>
    if loc + diameter / 2 < max_spanwise then
      loc :: circle_locs_loop spacing diameter max_spanwise fuel (loc + spacing)
    else []

/-- The circle-center list authored for a spar of spanwise extent
`[min_spanwise, max_spanwise]`: the loop starts one spacing unit in from the
minimum extent. -/
def circle_locs (min_spanwise max_spanwise spacing diameter : ℚ) (fuel : Nat) : List ℚ :=
  circle_locs_loop spacing diameter max_spanwise fuel (min_spanwise + spacing)

theorem circle_locs_loop_succ (spacing diameter max_spanwise : ℚ) (fuel : Nat) (loc : ℚ) :
    circle_locs_loop spacing diameter max_spanwise (fuel + 1) loc =
      (if loc + diameter / 2 < max_spanwise then
        loc :: circle_locs_loop spacing diameter max_spanwise fuel (loc + spacing)
      else []) := rfl

theorem circle_locs_loop_length_le (spacing diameter max_spanwise : ℚ) :
    ∀ (fuel : Nat) (loc : ℚ),
      (circle_locs_loop spacing diameter max_spanwise fuel loc).length ≤ fuel := by
  intro fuel
  induction fuel with
  | zero => intro loc; simp [circle_locs_loop]
  | succ n ih =>
    intro loc
    rw [circle_locs_loop]
    split
    · simpa using ih (loc + spacing)
    · simp

theorem circle_locs_loop_stable (spacing diameter max_spanwise : ℚ) :
    ∀ (fuel : Nat) (loc : ℚ),
      (circle_locs_loop spacing diameter max_spanwise fuel loc).length < fuel →
      ∀ fuel', fuel ≤ fuel' →
        circle_locs_loop spacing diameter max_spanwise fuel' loc =
          circle_locs_loop spacing diameter max_spanwise fuel loc := by
  intro fuel
  induction fuel with
  | zero => intro loc h; omega
  | succ n ih =>
    intro loc h fuel' hf
    obtain ⟨m, rfl⟩ : ∃ m, fuel' = m + 1 := ⟨fuel' - 1, by omega⟩
    rw [circle_locs_loop, circle_locs_loop]
    split
    · rw [circle_locs_loop] at h
      rw [if_pos (by assumption)] at h
      simp only [List.length_cons] at h
      rw [ih (loc + spacing) (by omega) m (by omega)]
    · rfl

theorem circle_locs_loop_full (spacing diameter max_spanwise : ℚ) :
    ∀ (fuel : Nat) (loc : ℚ),
      (circle_locs_loop spacing diameter max_spanwise fuel loc).length = fuel →
      ∀ k, k < fuel → loc + k * spacing + diameter / 2 < max_spanwise := by
  intro fuel
  induction fuel with
  | zero => intro loc _ k hk; omega
  | succ n ih =>
    intro loc h k hk
    rw [circle_locs_loop] at h
    by_cases hg : loc + diameter / 2 < max_spanwise
    · rw [if_pos hg] at h
      simp only [List.length_cons, Nat.succ.injEq] at h
      cases k with
      | zero => simpa using hg
      | succ j =>
        have := ih (loc + spacing) h j (by omega)
        have hcast : loc + (j + 1 : ℕ) * spacing = loc + spacing + (j : ℕ) * spacing := by
          push_cast
          ring
        rw [hcast]
        exact this
    · rw [if_neg hg] at h
      simp at h
  

theorem circle_locs_loop_shape (spacing diameter max_spanwise : ℚ) :
    ∀ (fuel : Nat) (loc : ℚ), ∃ m,
      circle_locs_loop spacing diameter max_spanwise fuel loc =
        (List.range m).map (fun (i : ℕ) => loc + (i : ℚ) * spacing) ∧
      m ≤ fuel ∧
      (∀ i : ℕ, i < m → loc + (i : ℚ) * spacing + diameter / 2 < max_spanwise) ∧
      (m < fuel → ¬(loc + (m : ℚ) * spacing + diameter / 2 < max_spanwise)) := by
  intro fuel
  induction fuel with
  | zero =>
    intro loc
    exact ⟨0, by rw [circle_locs_loop]; rfl, Nat.le_refl 0,
      fun i hi => absurd hi (by omega), fun h => absurd h (by omega)⟩
  | succ n ih =>
    intro loc
    by_cases hg : loc + diameter / 2 < max_spanwise
    · obtain ⟨m', h1, h2, h3, h4⟩ := ih (loc + spacing)
      refine ⟨m' + 1, ?_, by omega, ?_, ?_⟩
      · rw [circle_locs_loop, if_pos hg, h1, List.range_succ_eq_map, List.map_cons,
          List.map_map]
        refine congrArg₂ _ (by norm_num) ?_
        apply List.map_congr_left
        intro i _
        show loc + spacing + (i : ℚ) * spacing = loc + ((i + 1 : ℕ) : ℚ) * spacing
        push_cast
        ring
      · intro i hi
        cases i with
        | zero => simpa using hg
        | succ j =>
          have hj := h3 j (by omega)
          have hcast : loc + spacing + (j : ℚ) * spacing = loc + ((j + 1 : ℕ) : ℚ) * spacing := by
            push_cast
            ring
          rw [hcast] at hj
          exact hj
      · intro hm hcon
        apply h4 (by omega)
        have hcast : loc + spacing + (m' : ℚ) * spacing =
            loc + ((m' + 1 : ℕ) : ℚ) * spacing := by
          push_cast
          ring
        rw [hcast]
        exact hcon
    · refine ⟨0, ?_, by omega, fun i hi => absurd hi (by omega), fun _ => ?_⟩
      · rw [circle_locs_loop, if_neg hg]
        rfl
      · simpa using hg

theorem circle_locs_loop_terminates (spacing diameter max_spanwise : ℚ)
    (hS : 0 < spacing) (loc : ℚ) :
    ∃ fuel, (circle_locs_loop spacing diameter max_spanwise fuel loc).length < fuel := by
  obtain ⟨n, hn⟩ := exists_nat_gt ((max_spanwise - loc - diameter / 2) / spacing)
  refine ⟨n + 1, ?_⟩
  have hle := circle_locs_loop_length_le spacing diameter max_spanwise (n + 1) loc
  rcases Nat.lt_or_ge ((circle_locs_loop spacing diameter max_spanwise (n + 1) loc).length)
      (n + 1) with h | h
  · exact h
  · exfalso
    have heq : (circle_locs_loop spacing diameter max_spanwise (n + 1) loc).length = n + 1 :=
      Nat.le_antisymm hle h
    have hin := circle_locs_loop_full spacing diameter max_spanwise (n + 1) loc heq n
      (by omega)
    have h2 : max_spanwise - loc - diameter / 2 < (n : ℚ) * spacing := by
      rw [div_lt_iff₀ hS] at hn
      linarith
    linarith

/-- C9: with strictly positive spacing `S`, perforation diameter `D` and
spanwise extent `[min, max]`, the authored circle centers are exactly
`min + i*S` for `i = 1..k` (in order), where every center `min + i*S`
satisfies `min + i*S + D/2 < max` and the next one, `min + (k+1)*S`, would
not; moreover no center `c` with `c + D/2 ≥ max` is ever placed, at any
fuel. -/
theorem circle_locs_spec (min_spanwise max_spanwise spacing diameter : ℚ)
    (hS : 0 < spacing) :
    ∃ N k,
      (∀ fuel, N ≤ fuel →
        circle_locs min_spanwise max_spanwise spacing diameter fuel =
          (List.range k).map (fun (i : ℕ) => min_spanwise + ((i : ℚ) + 1) * spacing)) ∧
      (∀ i : ℕ, 1 ≤ i → i ≤ k →
        min_spanwise + (i : ℚ) * spacing + diameter / 2 < max_spanwise) ∧
      ¬(min_spanwise + ((k : ℚ) + 1) * spacing + diameter / 2 < max_spanwise) ∧
      (∀ fuel, ∀ c ∈ circle_locs min_spanwise max_spanwise spacing diameter fuel,
        c + diameter / 2 < max_spanwise) := by
  obtain ⟨n0, hn0⟩ :=
    circle_locs_loop_terminates spacing diameter max_spanwise hS (min_spanwise + spacing)
  obtain ⟨m, h1, h2, h3, h4⟩ :=
    circle_locs_loop_shape spacing diameter max_spanwise n0 (min_spanwise + spacing)
  have hlen : (circle_locs_loop spacing diameter max_spanwise n0
      (min_spanwise + spacing)).length = m := by
    rw [h1]
    simp
  have hmn : m < n0 := by omega
  refine ⟨n0, m, ?_, ?_, ?_, ?_⟩
  · intro fuel hf
    rw [circle_locs,
      circle_locs_loop_stable spacing diameter max_spanwise n0 _ hn0 fuel hf, h1]
    apply List.map_congr_left
    intro i _
    ring
  · intro i h1i hik
    obtain ⟨j, rfl⟩ : ∃ j, i = j + 1 := ⟨i - 1, by omega⟩
    have hj := h3 j (by omega)
    have hcast : min_spanwise + spacing + (j : ℚ) * spacing =
        min_spanwise + ((j + 1 : ℕ) : ℚ) * spacing := by
      push_cast
      ring
    rw [hcast] at hj
    exact hj
  · have hx := h4 hmn
    intro hcon
    apply hx
    linarith
  · intro fuel c hc
    obtain ⟨m', g1, _, g3, _⟩ :=
      circle_locs_loop_shape spacing diameter max_spanwise fuel (min_spanwise + spacing)
    rw [circle_locs, g1] at hc
    simp only [List.mem_map, List.mem_range] at hc
    obtain ⟨i, hi, rfl⟩ := hc
    exact g3 i hi

/-- Witness for C9: extent `[0, 1]`, spacing `1/4`, diameter `1/10`; the
stable list is the arithmetic progression, and with fuel 5 the computed
centers are `[1/4, 1/2, 3/4]`. -/
theorem circle_locs_spec_witness :
    (∃ N k, ∀ fuel, N ≤ fuel →
      circle_locs 0 1 (1 / 4) (1 / 10) fuel =
        (List.range k).map (fun (i : ℕ) => (0 : ℚ) + ((i : ℚ) + 1) * (1 / 4))) ∧
    circle_locs 0 1 (1 / 4) (1 / 10) 5 = [1 / 4, 1 / 2, 3 / 4] := by
  constructor
  · obtain ⟨N, k, hstable, _, _, _⟩ := circle_locs_spec 0 1 (1 / 4) (1 / 10) (by norm_num)
    exact ⟨N, k, hstable⟩
  · show circle_locs_loop (1 / 4) (1 / 10) 1 5 (0 + 1 / 4) = [1 / 4, 1 / 2, 3 / 4]
    rw [show (5 : ℕ) = 4 + 1 from rfl, circle_locs_loop_succ, if_pos (by norm_num)]
    rw [show (4 : ℕ) = 3 + 1 from rfl, circle_locs_loop_succ, if_pos (by norm_num)]
    rw [show (3 : ℕ) = 2 + 1 from rfl, circle_locs_loop_succ, if_pos (by norm_num)]
    rw [show (2 : ℕ) = 1 + 1 from rfl, circle_locs_loop_succ, if_neg (by norm_num)]
    norm_num

/-- C10: the perforation loop terminates (the center list is eventually
independent of the fuel) whenever the configured spacing is strictly
positive; strict positivity is necessary — with non-positive spacing and the
first guard true, the loop consumes every amount of fuel (one appended
center per unit of fuel, forever).  The source never validates the
spacing. -/
theorem circle_locs_termination (min_spanwise max_spanwise spacing diameter : ℚ) :
    (0 < spacing →
      ∃ N, ∀ fuel, N ≤ fuel →
        circle_locs min_spanwise max_spanwise spacing diameter fuel =
          circle_locs min_spanwise max_spanwise spacing diameter N) ∧
    (spacing ≤ 0 → min_spanwise + spacing + diameter / 2 < max_spanwise →
      ∀ fuel, (circle_locs min_spanwise max_spanwise spacing diameter fuel).length = fuel) := by
  constructor
  · intro hS
    obtain ⟨N, hN⟩ :=
      circle_locs_loop_terminates spacing diameter max_spanwise hS (min_spanwise + spacing)
    refine ⟨N, fun fuel hf => ?_⟩
    rw [circle_locs, circle_locs,
      circle_locs_loop_stable spacing diameter max_spanwise N _ hN fuel hf]
  · intro hS hstart
    have key : ∀ (fuel : Nat) (loc : ℚ), loc + diameter / 2 < max_spanwise →
        (circle_locs_loop spacing diameter max_spanwise fuel loc).length = fuel := by
      intro fuel
      induction fuel with
      | zero => intro loc _; rfl
      | succ n ih =>
        intro loc hl
        rw [circle_locs_loop, if_pos hl]
        simp only [List.length_cons]
        rw [ih (loc + spacing) (by linarith)]
    intro fuel
    rw [circle_locs]
    exact key fuel _ hstart

/-- Witness for C10: with spacing `1/4 > 0` the list stabilises; with
spacing `-1/4 ≤ 0` and a true first guard, fuel 7 yields a 7-element list
(the loop never stops by itself). -/
theorem circle_locs_termination_witness :
    (∃ N, ∀ fuel, N ≤ fuel →
      circle_locs 0 1 (1 / 4) (1 / 10) fuel = circle_locs 0 1 (1 / 4) (1 / 10) N) ∧
    (circle_locs 0 1 (-(1 / 4)) (1 / 10) 7).length = 7 := by
  refine ⟨(circle_locs_termination 0 1 (1 / 4) (1 / 10)).1 (by norm_num), ?_⟩
  exact (circle_locs_termination 0 1 (-(1 / 4)) (1 / 10)).2 (by norm_num) (by norm_num) 7

/-! ## The colinear-midpoint strategy (`index_of_point_in_middle`,
`src/WingRibs.py`): for 3 points, take each in turn, normalize the vectors
to the other two and look at the sign of their dot product; exactly one must
be negative, and its index is returned. -/

/-- The dot product the loop computes for base point `a` and the other two
points `b`, `c`: `ab.normalize() · ac.normalize()`. -/
noncomputable def middle_dot (a b c : Vec3) : ℝ :=
  Vec3.dot (Vec3.normalize (b - a)) (Vec3.normalize (c - a))

/-- `index_of_point_in_middle(points)`: asserts 3 points, builds the list of
the three dot products (`i`, `(i+1) % 3`, `(i+2) % 3`), asserts exactly one
is negative and returns the index of the first negative one.  (As in
`cell_between_planes`, the unreachable fall-through is modelled as an
error.) -/
noncomputable def index_of_point_in_middle (points : List Vec3) : Except String Nat :=
  match points with
  | [a, b, c] =>
    if ([middle_dot a b c, middle_dot b c a, middle_dot c a b].filter
        (fun x => decide (x < 0))).length = 1 then
      match [middle_dot a b c, middle_dot b c a, middle_dot c a b].findIdx?
          (fun x => decide (x < 0)) with
      | some i => Except.ok i
      | none => Except.error "no negative dot product"
    else
      Except.error "expected exactly 1 negative dot product."
  | _ => Except.error "expected3 points"

theorem dot_smul_smul (r s : ℝ) (u v : Vec3) :
    Vec3.dot (r • u) (s • v) = r * s * Vec3.dot u v := by
  simp only [Vec3.dot, Vec3.smul_x, Vec3.smul_y, Vec3.smul_z]
  ring

theorem dot_self_pos {v : Vec3} (hv : v ≠ 0) : 0 < Vec3.dot v v := by
  have hnn : 0 ≤ Vec3.dot v v := by
    simp only [Vec3.dot]
    nlinarith [sq_nonneg v.x, sq_nonneg v.y, sq_nonneg v.z]
  rcases hnn.lt_or_eq with h | h
  · exact h
  · exfalso
    apply hv
    have h' : v.x * v.x + v.y * v.y + v.z * v.z = 0 := by
      simpa [Vec3.dot] using h.symm
    rw [Vec3.ext_iff3]
    refine ⟨?_, ?_, ?_⟩ <;> simp <;> nlinarith [sq_nonneg v.x, sq_nonneg v.y, sq_nonneg v.z]

theorem norm_pos {v : Vec3} (hv : v ≠ 0) : 0 < Vec3.norm v :=
  Real.sqrt_pos.mpr (dot_self_pos hv)

theorem middle_dot_neg_iff (a b c : Vec3) (hb : b - a ≠ 0) (hc : c - a ≠ 0) :
    (middle_dot a b c < 0 ↔ Vec3.dot (b - a) (c - a) < 0) := by
  unfold middle_dot Vec3.normalize
  rw [dot_smul_smul]
  have hpos : 0 < 1 / Vec3.norm (b - a) * (1 / Vec3.norm (c - a)) :=
    mul_pos (one_div_pos.mpr (norm_pos hb)) (one_div_pos.mpr (norm_pos hc))
  constructor
  · intro h
    by_contra hnot
    push_neg at hnot
    nlinarith
  · intro h
    exact mul_neg_of_pos_of_neg hpos h

theorem sub_colinear (o d : Vec3) (s t : ℝ) :
    (o + s • d) - (o + t • d) = (s - t) • d := by
  rw [Vec3.ext_iff3]
  refine ⟨?_, ?_, ?_⟩ <;> simp <;> ring

theorem smul_ne_zero_vec {r : ℝ} {v : Vec3} (hr : r ≠ 0) (hv : v ≠ 0) : r • v ≠ 0 := by
  intro h
  apply hv
  rw [Vec3.ext_iff3] at h ⊢
  simp only [Vec3.smul_x, Vec3.smul_y, Vec3.smul_z, Vec3.zero_x, Vec3.zero_y, Vec3.zero_z] at h ⊢
  exact ⟨(mul_eq_zero.mp h.1).resolve_left hr, (mul_eq_zero.mp h.2.1).resolve_left hr,
    (mul_eq_zero.mp h.2.2).resolve_left hr⟩

theorem mul_pos_right_neg_iff {D : ℝ} (hD : 0 < D) (x : ℝ) : x * D < 0 ↔ x < 0 := by
  constructor
  · intro h
    by_contra hn
    push_neg at hn
    nlinarith
  · intro h
    exact mul_neg_of_neg_of_pos h hD

/-- The sign of one loop dot product in terms of the colinear parameters:
negative exactly when the base parameter `t0` lies strictly between `t1` and
`t2`. -/
theorem middle_dot_param (o d : Vec3) (hd : d ≠ 0) (t0 t1 t2 : ℝ)
    (h01 : t0 ≠ t1) (h02 : t0 ≠ t2) :
    (middle_dot (o + t0 • d) (o + t1 • d) (o + t2 • d) < 0 ↔
      (t1 - t0) * (t2 - t0) < 0) := by
  have hb : (o + t1 • d) - (o + t0 • d) = (t1 - t0) • d := sub_colinear o d t1 t0
  have hc : (o + t2 • d) - (o + t0 • d) = (t2 - t0) • d := sub_colinear o d t2 t0
  have hbne : (o + t1 • d) - (o + t0 • d) ≠ 0 := by
    rw [hb]
    exact smul_ne_zero_vec (sub_ne_zero.mpr (Ne.symm h01)) hd
  have hcne : (o + t2 • d) - (o + t0 • d) ≠ 0 := by
    rw [hc]
    exact smul_ne_zero_vec (sub_ne_zero.mpr (Ne.symm h02)) hd
  rw [middle_dot_neg_iff _ _ _ hbne hcne, hb, hc, dot_smul_smul]
  exact mul_pos_right_neg_iff (dot_self_pos hd) _

theorem iopm_eval0 (a b c : Vec3)
    (h0 : middle_dot a b c < 0) (h1 : ¬middle_dot b c a < 0) (h2 : ¬middle_dot c a b < 0) :
    ([middle_dot a b c, middle_dot b c a, middle_dot c a b].filter
        (fun x => decide (x < 0))).length = 1 ∧
    index_of_point_in_middle [a, b, c] = Except.ok 0 := by
  have hd0 : decide (middle_dot a b c < 0) = true := decide_eq_true h0
  have hd1 : decide (middle_dot b c a < 0) = false := decide_eq_false h1
  have hd2 : decide (middle_dot c a b < 0) = false := decide_eq_false h2
  have hfil : ([middle_dot a b c, middle_dot b c a, middle_dot c a b].filter
      (fun x => decide (x < 0))) = [middle_dot a b c] := by
    simp [List.filter_cons, hd0, hd1, hd2]
  refine ⟨by rw [hfil]; rfl, ?_⟩
  show (if ([middle_dot a b c, middle_dot b c a, middle_dot c a b].filter
      (fun x => decide (x < 0))).length = 1 then _ else _) = _
  rw [hfil]
  rw [if_pos (by rfl)]
  rw [List.findIdx?_cons, hd0]
  rfl

theorem iopm_eval1 (a b c : Vec3)
    (h0 : ¬middle_dot a b c < 0) (h1 : middle_dot b c a < 0) (h2 : ¬middle_dot c a b < 0) :
    ([middle_dot a b c, middle_dot b c a, middle_dot c a b].filter
        (fun x => decide (x < 0))).length = 1 ∧
    index_of_point_in_middle [a, b, c] = Except.ok 1 := by
  have hd0 : decide (middle_dot a b c < 0) = false := decide_eq_false h0
  have hd1 : decide (middle_dot b c a < 0) = true := decide_eq_true h1
  have hd2 : decide (middle_dot c a b < 0) = false := decide_eq_false h2
  have hfil : ([middle_dot a b c, middle_dot b c a, middle_dot c a b].filter
      (fun x => decide (x < 0))) = [middle_dot b c a] := by
    simp [List.filter_cons, hd0, hd1, hd2]
  refine ⟨by rw [hfil]; rfl, ?_⟩
  show (if ([middle_dot a b c, middle_dot b c a, middle_dot c a b].filter
      (fun x => decide (x < 0))).length = 1 then _ else _) = _
  rw [hfil]
  rw [if_pos (by rfl)]
  rw [List.findIdx?_cons, hd0]
  rw [if_neg (by simp)]
  rw [List.findIdx?_cons, hd1]
  rfl

theorem iopm_eval2 (a b c : Vec3)
    (h0 : ¬middle_dot a b c < 0) (h1 : ¬middle_dot b c a < 0) (h2 : middle_dot c a b < 0) :
    ([middle_dot a b c, middle_dot b c a, middle_dot c a b].filter
        (fun x => decide (x < 0))).length = 1 ∧
    index_of_point_in_middle [a, b, c] = Except.ok 2 := by
  have hd0 : decide (middle_dot a b c < 0) = false := decide_eq_false h0
  have hd1 : decide (middle_dot b c a < 0) = false := decide_eq_false h1
  have hd2 : decide (middle_dot c a b < 0) = true := decide_eq_true h2
  have hfil : ([middle_dot a b c, middle_dot b c a, middle_dot c a b].filter
      (fun x => decide (x < 0))) = [middle_dot c a b] := by
    simp [List.filter_cons, hd0, hd1, hd2]
  refine ⟨by rw [hfil]; rfl, ?_⟩
  show (if ([middle_dot a b c, middle_dot b c a, middle_dot c a b].filter
      (fun x => decide (x < 0))).length = 1 then _ else _) = _
  rw [hfil]
  rw [if_pos (by rfl)]
  rw [List.findIdx?_cons, hd0]
  rw [if_neg (by simp)]
  rw [List.findIdx?_cons, hd1]
  rw [if_neg (by simp)]
  rw [List.findIdx?_cons, hd2]
  rfl

/-- C4: for any 3 distinct colinear points (written as `o + t • d` with a
common direction `d ≠ 0` and pairwise distinct parameters), exactly one of
the three loop dot products is negative, and `index_of_point_in_middle`
returns the index of the point whose parameter lies strictly between the
other two — the middle point. -/
theorem index_of_point_in_middle_correct (a b c o d : Vec3) (ta tb tc : ℝ)
    (hd : d ≠ 0)
    (ha : a = o + ta • d) (hb : b = o + tb • d) (hc : c = o + tc • d)
    (hab : ta ≠ tb) (hbc : tb ≠ tc) (hac : ta ≠ tc) :
    ([middle_dot a b c, middle_dot b c a, middle_dot c a b].filter
        (fun x => decide (x < 0))).length = 1 ∧
    ((index_of_point_in_middle [a, b, c] = Except.ok 0 ∧
        ((tb < ta ∧ ta < tc) ∨ (tc < ta ∧ ta < tb))) ∨
      (index_of_point_in_middle [a, b, c] = Except.ok 1 ∧
        ((ta < tb ∧ tb < tc) ∨ (tc < tb ∧ tb < ta))) ∨
      (index_of_point_in_middle [a, b, c] = Except.ok 2 ∧
        ((ta < tc ∧ tc < tb) ∨ (tb < tc ∧ tc < ta)))) := by
  subst ha hb hc
  have h0 := middle_dot_param o d hd ta tb tc hab hac
  have h1 := middle_dot_param o d hd tb tc ta hbc (Ne.symm hab)
  have h2 := middle_dot_param o d hd tc ta tb (Ne.symm hac) (Ne.symm hbc)
  rcases lt_trichotomy ta tb with hab' | hab' | hab'
  · rcases lt_trichotomy tb tc with hbc' | hbc' | hbc'
    · -- ta < tb < tc : middle is b
      have s0 : ¬middle_dot (o + ta • d) (o + tb • d) (o + tc • d) < 0 :=
        (not_congr h0).mpr (by nlinarith)
      have s1 : middle_dot (o + tb • d) (o + tc • d) (o + ta • d) < 0 :=
        h1.mpr (mul_neg_of_pos_of_neg (by linarith) (by linarith))
      have s2 : ¬middle_dot (o + tc • d) (o + ta • d) (o + tb • d) < 0 :=
        (not_congr h2).mpr (by nlinarith)
      obtain ⟨hcnt, hok⟩ := iopm_eval1 _ _ _ s0 s1 s2
      exact ⟨hcnt, Or.inr (Or.inl ⟨hok, Or.inl ⟨hab', hbc'⟩⟩)⟩
    · exact absurd hbc' hbc
    · rcases lt_trichotomy ta tc with hac' | hac' | hac'
      · -- ta < tc < tb : middle is c
        have s0 : ¬middle_dot (o + ta • d) (o + tb • d) (o + tc • d) < 0 :=
          (not_congr h0).mpr (by nlinarith)
        have s1 : ¬middle_dot (o + tb • d) (o + tc • d) (o + ta • d) < 0 :=
          (not_congr h1).mpr (by nlinarith)
        have s2 : middle_dot (o + tc • d) (o + ta • d) (o + tb • d) < 0 :=
          h2.mpr (mul_neg_of_neg_of_pos (by linarith) (by linarith))
        obtain ⟨hcnt, hok⟩ := iopm_eval2 _ _ _ s0 s1 s2
        exact ⟨hcnt, Or.inr (Or.inr ⟨hok, Or.inl ⟨hac', hbc'⟩⟩)⟩
      · exact absurd hac' hac
      · -- tc < ta < tb : middle is a
        have s0 : middle_dot (o + ta • d) (o + tb • d) (o + tc • d) < 0 :=
          h0.mpr (mul_neg_of_pos_of_neg (by linarith) (by linarith))
        have s1 : ¬middle_dot (o + tb • d) (o + tc • d) (o + ta • d) < 0 :=
          (not_congr h1).mpr (by nlinarith)
        have s2 : ¬middle_dot (o + tc • d) (o + ta • d) (o + tb • d) < 0 :=
          (not_congr h2).mpr (by nlinarith)
        obtain ⟨hcnt, hok⟩ := iopm_eval0 _ _ _ s0 s1 s2
        exact ⟨hcnt, Or.inl ⟨hok, Or.inr ⟨hac', hab'⟩⟩⟩
  · exact absurd hab' hab
  · rcases lt_trichotomy ta tc with hac' | hac' | hac'
    · -- tb < ta < tc : middle is a
      have s0 : middle_dot (o + ta • d) (o + tb • d) (o + tc • d) < 0 :=
        h0.mpr (mul_neg_of_neg_of_pos (by linarith) (by linarith))
      have s1 : ¬middle_dot (o + tb • d) (o + tc • d) (o + ta • d) < 0 :=
        (not_congr h1).mpr (by nlinarith)
      have s2 : ¬middle_dot (o + tc • d) (o + ta • d) (o + tb • d) < 0 :=
        (not_congr h2).mpr (by nlinarith)
      obtain ⟨hcnt, hok⟩ := iopm_eval0 _ _ _ s0 s1 s2
      exact ⟨hcnt, Or.inl ⟨hok, Or.inl ⟨hab', hac'⟩⟩⟩
    · exact absurd hac' hac
    · rcases lt_trichotomy tb tc with hbc' | hbc' | hbc'
      · -- tb < tc < ta : middle is c
        have s0 : ¬middle_dot (o + ta • d) (o + tb • d) (o + tc • d) < 0 :=
          (not_congr h0).mpr (by nlinarith)
        have s1 : ¬middle_dot (o + tb • d) (o + tc • d) (o + ta • d) < 0 :=
          (not_congr h1).mpr (by nlinarith)
        have s2 : middle_dot (o + tc • d) (o + ta • d) (o + tb • d) < 0 :=
          h2.mpr (mul_neg_of_pos_of_neg (by linarith) (by linarith))
        obtain ⟨hcnt, hok⟩ := iopm_eval2 _ _ _ s0 s1 s2
        exact ⟨hcnt, Or.inr (Or.inr ⟨hok, Or.inr ⟨hbc', hac'⟩⟩)⟩
      · exact absurd hbc' hbc
      · -- tc < tb < ta : middle is b
        have s0 : ¬middle_dot (o + ta • d) (o + tb • d) (o + tc • d) < 0 :=
          (not_congr h0).mpr (by nlinarith)
        have s1 : middle_dot (o + tb • d) (o + tc • d) (o + ta • d) < 0 :=
          h1.mpr (mul_neg_of_neg_of_pos (by linarith) (by linarith))
        have s2 : ¬middle_dot (o + tc • d) (o + ta • d) (o + tb • d) < 0 :=
          (not_congr h2).mpr (by nlinarith)
        obtain ⟨hcnt, hok⟩ := iopm_eval1 _ _ _ s0 s1 s2
        exact ⟨hcnt, Or.inr (Or.inl ⟨hok, Or.inr ⟨hbc', hab'⟩⟩)⟩

/-- Witness for C4: for the equally spaced colinear points
`(0,0,0), (1,0,0), (2,0,0)` the returned index is 1. -/
theorem index_of_point_in_middle_witness :
    index_of_point_in_middle [⟨0, 0, 0⟩, ⟨1, 0, 0⟩, ⟨2, 0, 0⟩] = Except.ok 1 := by
  have hd : (⟨1, 0, 0⟩ : Vec3) ≠ 0 := by
    intro h
    rw [Vec3.ext_iff3] at h
    simp at h
  have h := index_of_point_in_middle_correct ⟨0, 0, 0⟩ ⟨1, 0, 0⟩ ⟨2, 0, 0⟩
    ⟨0, 0, 0⟩ ⟨1, 0, 0⟩ 0 1 2 hd
    (by rw [Vec3.ext_iff3]; norm_num)
    (by rw [Vec3.ext_iff3]; norm_num)
    (by rw [Vec3.ext_iff3]; norm_num)
    (by norm_num) (by norm_num) (by norm_num)
  rcases h.2 with ⟨_, hmid⟩ | ⟨hok, _⟩ | ⟨_, hmid⟩
  · exfalso
    rcases hmid with ⟨h1, h2⟩ | ⟨h1, h2⟩ <;> linarith
  · exact hok
  · exfalso
    rcases hmid with ⟨h1, h2⟩ | ⟨h1, h2⟩ <;> linarith

/-! ## Rib vertical posts and gussets (`create_rib_vertical_post`,
`src/scripts/f360lib/wing.py`).

The post is produced by a boundary fill between two planes (the `FillEnv`
abstraction above); the sketch authoring, the two triangular profiles, their
extrusion and the trim against the wing body are kernel side effects, so the
embedding records only their observable outcome: the list of gusset body
names created (`top_triangle`, `bottom_triangle`), which is empty when the
vertical extent test fails.  `sketchProfilesCount` is what
`sketch.profiles.count` reports after the two triangles are drawn (asserted
to be 2 by the source). -/

/-- `VERTICAL_UP_DIRECTION` from `orientation.py`. -/
def VERTICAL_UP_DIRECTION : Vec3 := ⟨0, 0, 1⟩

/-- `SPANWISE_DIRECTION` from `orientation.py`. -/
def SPANWISE_DIRECTION : Vec3 := ⟨0, 1, 0⟩

theorem project_coord_vertical (v : Vec3) : project_coord v VERTICAL_UP_DIRECTION = v.z := by
  simp only [project_coord, VERTICAL_UP_DIRECTION]
  norm_num

/-- `create_rib_vertical_post(...)`: boundary-fill the post between the two
planes, measure its vertical extent from the bounding box with
`project_coord` along `VERTICAL_UP_DIRECTION`, and only when
`top - bottom > 2 * tri_side` author and extrude the two triangular gusset
profiles (asserting the sketch holds exactly 2 profiles).  The post body is
returned in every non-error case. -/
noncomputable def create_rib_vertical_post (fill : FillEnv)
    (plane1 plane2 : ConstructionPlane) (rib_post_triangle_len : ℝ)
    (sketchProfilesCount : Nat) : Except String (Body × List String) :=
  match boundary_fill_between_planes fill plane1 plane2 with
  | (Except.error e, _) => Except.error e
  | (Except.ok post, _) =>
    let top := project_coord post.boundingBox.maxPoint VERTICAL_UP_DIRECTION
    let bottom := project_coord post.boundingBox.minPoint VERTICAL_UP_DIRECTION
    let tri_side := rib_post_triangle_len
    if top - bottom > 2 * tri_side then
      if sketchProfilesCount = 2 then
        Except.ok (post, ["top_triangle", "bottom_triangle"])
      else
        Except.error "expected 2 triangle profiles in the sketch just created"
    else
      Except.ok (post, [])

/-- C8: when the post boundary fill succeeds, the two triangular gussets are
authored precisely when the post's vertical extent strictly exceeds twice the
gusset triangle side; an insufficient extent yields no gussets and no error,
with the post body still returned. -/
theorem create_rib_vertical_post_gussets (fill : FillEnv) (p1 p2 : ConstructionPlane)
    (tri_side : ℝ) (profiles : Nat) (post : Body)
    (hfill : (boundary_fill_between_planes fill p1 p2).1 = Except.ok post) :
    (¬(project_coord post.boundingBox.maxPoint VERTICAL_UP_DIRECTION -
        project_coord post.boundingBox.minPoint VERTICAL_UP_DIRECTION > 2 * tri_side) →
      create_rib_vertical_post fill p1 p2 tri_side profiles = Except.ok (post, [])) ∧
    (∀ out, create_rib_vertical_post fill p1 p2 tri_side profiles = Except.ok out →
      out.1 = post ∧
      (out.2 ≠ [] ↔
        project_coord post.boundingBox.maxPoint VERTICAL_UP_DIRECTION -
          project_coord post.boundingBox.minPoint VERTICAL_UP_DIRECTION > 2 * tri_side) ∧
      (out.2 ≠ [] → out.2 = ["top_triangle", "bottom_triangle"])) := by
  rcases hr : boundary_fill_between_planes fill p1 p2 with ⟨res, tr⟩
  rw [hr] at hfill
  simp only at hfill
  subst hfill
  have hcr : create_rib_vertical_post fill p1 p2 tri_side profiles =
      (if project_coord post.boundingBox.maxPoint VERTICAL_UP_DIRECTION -
          project_coord post.boundingBox.minPoint VERTICAL_UP_DIRECTION > 2 * tri_side then
        (if profiles = 2 then Except.ok (post, ["top_triangle", "bottom_triangle"])
          else Except.error "expected 2 triangle profiles in the sketch just created")
      else Except.ok (post, [])) := by
    unfold create_rib_vertical_post
    rw [hr]
  constructor
  · intro hshort
    rw [hcr, if_neg hshort]
  · intro out hout
    rw [hcr] at hout
    by_cases htall : project_coord post.boundingBox.maxPoint VERTICAL_UP_DIRECTION -
        project_coord post.boundingBox.minPoint VERTICAL_UP_DIRECTION > 2 * tri_side
    · rw [if_pos htall] at hout
      by_cases hp : profiles = 2
      · rw [if_pos hp] at hout
        have hout' : out = (post, ["top_triangle", "bottom_triangle"]) := by
          simpa using hout.symm
        subst hout'
        exact ⟨rfl, by simpa using htall, fun _ => rfl⟩
      · rw [if_neg hp] at hout
        exact absurd hout (by simp)
    · rw [if_neg htall] at hout
      have hout' : out = (post, []) := by
        simpa using hout.symm
      subst hout'
      refine ⟨rfl, ?_, fun hne => absurd rfl hne⟩
      simp only [ne_eq, not_true_eq_false, false_iff]
      exact htall

/-- Witness for C8: a post with bounding box `[(0,0,0), (1,1,1)]` (vertical
extent 1) and gusset triangle side 1: `1 > 2` fails, so no gussets, no
error, and the post body is returned. -/
theorem create_rib_vertical_post_gussets_witness :
    create_rib_vertical_post
        ⟨[⟨⟨⟨⟨0, 1, 0⟩, ⟨0, 1, 0⟩⟩⟩⟩, ⟨⟨⟨⟨0, 3, 0⟩, ⟨0, 3, 0⟩⟩⟩⟩],
          [⟨⟨⟨0, 0, 0⟩, ⟨1, 1, 1⟩⟩⟩], false⟩
        ⟨⟨0, 0, 0⟩, ⟨0, 1, 0⟩⟩ ⟨⟨0, 2, 0⟩, ⟨0, 1, 0⟩⟩ 1 2 =
      Except.ok (⟨⟨⟨0, 0, 0⟩, ⟨1, 1, 1⟩⟩⟩, []) := by
  have hproj : ∀ v : Vec3, project_coord v ⟨0, 1, 0⟩ = v.y := by
    intro v
    simp only [project_coord]
    norm_num
  have hF1 : between_coord
      (centroid_of_bounding_box (⟨⟨⟨⟨0, 1, 0⟩, ⟨0, 1, 0⟩⟩⟩⟩ : Cell).cellBody.boundingBox)
      ⟨⟨0, 0, 0⟩, ⟨0, 1, 0⟩⟩ ⟨⟨0, 2, 0⟩, ⟨0, 1, 0⟩⟩ = true := by
    rw [between_coord_iff]
    rw [hproj, hproj, hproj]
    show min (0 : ℝ) 2 ≤ (centroid_of_bounding_box ⟨⟨0, 1, 0⟩, ⟨0, 1, 0⟩⟩).y ∧ _
    simp [centroid_of_bounding_box]
  have hF2 : between_coord
      (centroid_of_bounding_box (⟨⟨⟨⟨0, 3, 0⟩, ⟨0, 3, 0⟩⟩⟩⟩ : Cell).cellBody.boundingBox)
      ⟨⟨0, 0, 0⟩, ⟨0, 1, 0⟩⟩ ⟨⟨0, 2, 0⟩, ⟨0, 1, 0⟩⟩ = false := by
    simp only [between_coord, hproj]
    rw [decide_eq_false_iff_not]
    show ¬(min (0 : ℝ) 2 ≤ (centroid_of_bounding_box ⟨⟨0, 3, 0⟩, ⟨0, 3, 0⟩⟩).y ∧
      (centroid_of_bounding_box ⟨⟨0, 3, 0⟩, ⟨0, 3, 0⟩⟩).y ≤ max (0 : ℝ) 2)
    simp [centroid_of_bounding_box]
    norm_num
  have hsel : cell_between_planes
      [⟨⟨⟨⟨0, 1, 0⟩, ⟨0, 1, 0⟩⟩⟩⟩, ⟨⟨⟨⟨0, 3, 0⟩, ⟨0, 3, 0⟩⟩⟩⟩]
      ⟨⟨0, 0, 0⟩, ⟨0, 1, 0⟩⟩ ⟨⟨0, 2, 0⟩, ⟨0, 1, 0⟩⟩ =
      Except.ok ⟨⟨⟨⟨0, 1, 0⟩, ⟨0, 1, 0⟩⟩⟩⟩ := by
    rw [cell_between_planes_eq
      [⟨⟨⟨⟨0, 1, 0⟩, ⟨0, 1, 0⟩⟩⟩⟩, ⟨⟨⟨⟨0, 3, 0⟩, ⟨0, 3, 0⟩⟩⟩⟩]
      ⟨⟨0, 0, 0⟩, ⟨0, 1, 0⟩⟩ ⟨⟨0, 2, 0⟩, ⟨0, 1, 0⟩⟩ rfl]
    rw [if_pos (by rw [List.countP_cons, List.countP_cons, List.countP_nil, hF1, hF2]; rfl)]
    have hfind : List.find?
        (fun (c : Cell) => between_coord (centroid_of_bounding_box c.cellBody.boundingBox)
          ⟨⟨0, 0, 0⟩, ⟨0, 1, 0⟩⟩ ⟨⟨0, 2, 0⟩, ⟨0, 1, 0⟩⟩)
        ([⟨⟨⟨⟨0, 1, 0⟩, ⟨0, 1, 0⟩⟩⟩⟩, ⟨⟨⟨⟨0, 3, 0⟩, ⟨0, 3, 0⟩⟩⟩⟩] : List Cell) =
        some ⟨⟨⟨⟨0, 1, 0⟩, ⟨0, 1, 0⟩⟩⟩⟩ :=
      List.find?_cons_of_pos _ hF1
    rw [hfind]
  have hattempt : boundary_fill_attempt
      ⟨[⟨⟨⟨⟨0, 1, 0⟩, ⟨0, 1, 0⟩⟩⟩⟩, ⟨⟨⟨⟨0, 3, 0⟩, ⟨0, 3, 0⟩⟩⟩⟩],
        [⟨⟨⟨0, 0, 0⟩, ⟨1, 1, 1⟩⟩⟩], false⟩
      ⟨⟨0, 0, 0⟩, ⟨0, 1, 0⟩⟩ ⟨⟨0, 2, 0⟩, ⟨0, 1, 0⟩⟩ =
      (Except.ok ⟨⟨⟨0, 0, 0⟩, ⟨1, 1, 1⟩⟩⟩, [FillEv.select, FillEv.add]) := by
    have hcond : ([⟨⟨⟨⟨0, 1, 0⟩, ⟨0, 1, 0⟩⟩⟩⟩, ⟨⟨⟨⟨0, 3, 0⟩, ⟨0, 3, 0⟩⟩⟩⟩] : List Cell).length = 2 ∨
        ([⟨⟨⟨⟨0, 1, 0⟩, ⟨0, 1, 0⟩⟩⟩⟩, ⟨⟨⟨⟨0, 3, 0⟩, ⟨0, 3, 0⟩⟩⟩⟩] : List Cell).length = 3 :=
      Or.inl rfl
    unfold boundary_fill_attempt
    dsimp only
    rw [if_pos hcond, hsel]
  have hfill : (boundary_fill_between_planes
      ⟨[⟨⟨⟨⟨0, 1, 0⟩, ⟨0, 1, 0⟩⟩⟩⟩, ⟨⟨⟨⟨0, 3, 0⟩, ⟨0, 3, 0⟩⟩⟩⟩],
        [⟨⟨⟨0, 0, 0⟩, ⟨1, 1, 1⟩⟩⟩], false⟩
      ⟨⟨0, 0, 0⟩, ⟨0, 1, 0⟩⟩ ⟨⟨0, 2, 0⟩, ⟨0, 1, 0⟩⟩).1 =
      Except.ok ⟨⟨⟨0, 0, 0⟩, ⟨1, 1, 1⟩⟩⟩ := by
    unfold boundary_fill_between_planes
    rw [hattempt]
  have h := create_rib_vertical_post_gussets
    ⟨[⟨⟨⟨⟨0, 1, 0⟩, ⟨0, 1, 0⟩⟩⟩⟩, ⟨⟨⟨⟨0, 3, 0⟩, ⟨0, 3, 0⟩⟩⟩⟩],
      [⟨⟨⟨0, 0, 0⟩, ⟨1, 1, 1⟩⟩⟩], false⟩
    ⟨⟨0, 0, 0⟩, ⟨0, 1, 0⟩⟩ ⟨⟨0, 2, 0⟩, ⟨0, 1, 0⟩⟩ 1 2 ⟨⟨⟨0, 0, 0⟩, ⟨1, 1, 1⟩⟩⟩ hfill
  apply h.1
  rw [project_coord_vertical, project_coord_vertical]
  norm_num
